import Mathlib

/-!
Verification of the ChessburgerBot statistics core (src/bot.js, and the
earlier revision in src/unnamed/part_000, whose stats pipeline is identical).

The development shallowly embeds, from the JavaScript source:
  * the period-window computation of the chat handlers (`periodWindow`,
    bot.js lines 67-86);
  * the month-range resolution of `getStats` (`resolveMonths`,
    bot.js lines 238-274), including the JS-`Set`-of-strings bucket keys,
    the future-month filter and the lexicographic string sort;
  * the per-month fetch wrapper (`fetchGamesForMonth`, lines 278-294) with
    its error-absorbing behaviour, modelled over an oracle assigning an
    outcome to every URL;
  * the aggregation core (`aggregate`, lines 304-357): period filter,
    in-place sort of allGames, last-game-before scan, per-class counts and
    start/end ratings with the fallback rule.

Conventions: instants are integers of milliseconds since the Unix epoch
(JS Date time values); game end times are epoch seconds, multiplied by 1000
exactly where the source does.  Int division `/` and `%` in Lean are
Euclidean, which for the positive literal divisors used here coincides with
the floor semantics of the ECMAScript date normalisation algorithms.
-/

/-- Participant record of a game (the white / black objects of the
chess.com game payload): username and rating. -/
structure Player where
  username : String
  rating : Int
deriving DecidableEq, Repr

/-- Game record as consumed by getStats: epoch-second end time, time-control
class string, and both participants. -/
structure Game where
  end_time : Int
  time_class : String
  white : Player
  black : Player
deriving DecidableEq, Repr

/-- Triple of per-time-control-class values (rapid / blitz / bullet), the
shape of the stats, startRatings and endRatings objects in getStats. -/
structure PerMode (α : Type) where
  rapid : α
  blitz : α
  bullet : α
deriving DecidableEq, Repr

/-- Result object returned by getStats: per-class game counts, per-class
start and end ratings (null modelled as none), and the in-period game list. -/
structure StatsResult where
  stats : PerMode Nat
  startRatings : PerMode (Option Int)
  endRatings : PerMode (Option Int)
  gamesInPeriod : List Game
deriving DecidableEq, Repr

/-- View of a JS Date argument as observed by getStats: its time value in
milliseconds plus the fields read from it (getUTCFullYear, getUTCMonth). -/
structure DateParts where
  ms : Int
  utcFullYear : Int
  utcMonth : Int
deriving DecidableEq, Repr

/-- Civil UTC coordinates of the reference instant as observed by the
period-window computation: getUTCFullYear, getUTCMonth (0-based) and
getUTCDate (1-based day of month). -/
structure CivilNow where
  year : Int
  monthIdx : Int
  day : Int
deriving DecidableEq, Repr

/-- Outcome of one HTTP fetch of a month archive, as distinguished by
fetchGamesForMonth: a thrown error (network or JSON parse), a non-success
HTTP status, a success whose payload lacks a games field, or a success
with a list of games. -/
inductive FetchOutcome where
  | throwErr : FetchOutcome
  | httpFailure : FetchOutcome
  | okMissingGames : FetchOutcome
  | ok : List Game → FetchOutcome
deriving DecidableEq, Repr

/-! ## Decimal rendering and parsing of bucket keys

The source keys month buckets by the template string year-month with the
month unpadded, deduplicates them in a JS Set, filters them by parsing with
split and Number, and sorts them with the default lexicographic string
sort.  Keys are modelled as lists of characters. -/

/-- Decimal digit character for a value below ten. -/
def digitChar (d : Nat) : Char := Char.ofNat (48 + d)

/-- Little-endian decimal digits of a positive number; the first argument
is fuel, always called with fuel at least the number itself. -/
def natToRevDigits : Nat → Nat → List Char
  | 0, _ => []
  | _ + 1, 0 => []
  | fuel + 1, n + 1 => digitChar ((n + 1) % 10) :: natToRevDigits fuel ((n + 1) / 10)

/-- Decimal rendering of a natural number, as JS number-to-string. -/
def natDigits (n : Nat) : List Char :=
  if n = 0 then ['0'] else (natToRevDigits (n + 1) n).reverse

/-- Decimal rendering of an integer, as JS number-to-string. -/
def intToChars (i : Int) : List Char :=
  if i < 0 then '-' :: natDigits (-i).toNat else natDigits i.toNat

/-- Bucket key as built by getStats: year, dash, unpadded month. -/
def mkKey (y m : Int) : List Char := intToChars y ++ '-' :: intToChars m

/-- Split a character list on dashes, as JS String.prototype.split with
separator dash: returns the (possibly empty) segments between dashes. -/
def splitDash : List Char → List (List Char)
  | [] => [[]]
  | c :: rest =>
    if c = '-' then [] :: splitDash rest
    else
      match splitDash rest with
      | [] => [[c]]
      | p :: ps => (c :: p) :: ps

/-- Big-endian value of a list of decimal digit characters. -/
def bigEndianVal (l : List Char) : Nat :=
  l.foldl (fun a c => a * 10 + (c.toNat - 48)) 0

/-- JS Number conversion of a split segment, restricted to the digit
strings produced by the key builder: the empty string converts to 0, a
digit string to its value, anything else to NaN (modelled as none; NaN
compares false under every relational operator, exactly as none does in
the comparison helpers below). -/
def jsNum (l : List Char) : Option Int :=
  if l.all (fun c => decide ('0' ≤ c) && decide (c ≤ '9')) then
    some (bigEndianVal l)
  else none

/-- Comparison a greater-than bound for a possibly-NaN JS number: NaN
comparisons are false. -/
def optGT : Option Int → Int → Bool
  | none, _ => false
  | some a, b => decide (b < a)

/-- Strict equality test of a possibly-NaN JS number with an integer: NaN
is equal to nothing. -/
def optEqI : Option Int → Int → Bool
  | none, _ => false
  | some a, b => a == b

/-- Future-month filter predicate of getStats (lines 266-271): parse the
key with split and Number and drop it when its year is beyond the current
year, or its year is the current year and its month is beyond the current
month. -/
def keepKey (nowYear nowMonth : Int) (k : List Char) : Bool :=
  let parts := splitDash k
  let y := match parts.get? 0 with | none => none | some p => jsNum p
  let mon := match parts.get? 1 with | none => none | some p => jsNum p
  if optGT y nowYear then false
  else if optEqI y nowYear && optGT mon nowMonth then false
  else true

/-- Insertion into a JS Set: append unless already present (JS Sets keep
insertion order and ignore re-insertions). -/
def setAdd (l : List (List Char)) (s : List Char) : List (List Char) :=
  if s ∈ l then l else l ++ [s]

/-- Default JS array sort of the key strings: lexicographic by character
code, realised as a sort under the lexicographic linear order on character
lists (the keys of a Set are pairwise distinct, so any sorted permutation
is the JS result). -/
def sortKeys (l : List (List Char)) : List (List Char) :=
  List.insertionSort (· ≤ ·) l

/-! ## Calendar arithmetic

Models of the ECMAScript MakeDay / Date.UTC computations.  daysFromCivil
maps a civil UTC date to its day number relative to 1970-01-01 (the
standard era-based algorithm); dateUTCms is Date.UTC with a possibly
out-of-range month index and day, normalised exactly as MakeDay does
(month index floor-divided into the year, day offset applied linearly). -/

/-- Day number of the civil date y-m-d (month 1..12, day arbitrary and
applied as a linear offset) relative to the epoch 1970-01-01. -/
def daysFromCivil (y m d : Int) : Int :=
  let yShift := if 2 < m then y else y - 1
  let mp := if 2 < m then m - 3 else m + 9
  let era := yShift / 400
  let yoe := yShift - era * 400
  let doy := (153 * mp + 2) / 5 + d - 1
  let doe := yoe * 365 + yoe / 4 - yoe / 100 + doy
  era * 146097 + doe - 719468

/-- Time value (milliseconds) of Date.UTC(y, mIdx, d, h, mi, s) with
0-based month index mIdx normalised into the year as MakeDay prescribes. -/
def dateUTCms (y mIdx d h mi s : Int) : Int :=
  daysFromCivil (y + mIdx / 12) (mIdx % 12 + 1) d * 86400000
    + h * 3600000 + mi * 60000 + s * 1000

/-- Time value of the first instant of the month with 0-based index mIdx
of year y (used by the yearly iteration of getStats, whose iterator always
sits at day 1, midnight). -/
def monthStartMs (y mIdx : Int) : Int := dateUTCms y mIdx 1 0 0 0

/-- Day number of the reference instant described by civil coordinates
(its getUTCFullYear / getUTCMonth / getUTCDate readings). -/
def nowDayNum (n : CivilNow) : Int := daysFromCivil n.year (n.monthIdx + 1) n.day

/-- Period window computation shared by the chat handlers (bot.js lines
67-86 and part_000 lines 243-266): start and end time values for each
period type, none for an unrecognised type.  The weekly branch first
shifts the reference date back diff days with setUTCDate and then rebuilds
UTC midnight of the shifted date; since setUTCDate normalises exactly like
MakeDay, that midnight equals daysFromCivil applied to the unnormalised
day-of-month n.day - diff, which is how the branch is written here. -/
def periodWindow (pt : String) (n : CivilNow) : Option (Int × Int) :=
  if pt == "daily" then
    some (dateUTCms n.year n.monthIdx n.day 0 0 0,
          dateUTCms n.year n.monthIdx n.day 23 59 59)
  else if pt == "weekly" then
    let day := (nowDayNum n + 4) % 7
    let diff := if day = 0 then 6 else day - 1
    some (dateUTCms n.year n.monthIdx (n.day - diff) 0 0 0,
          dateUTCms n.year n.monthIdx n.day 23 59 59)
  else if pt == "monthly" then
    some (dateUTCms n.year n.monthIdx 1 0 0 0,
          dateUTCms n.year (n.monthIdx + 1) 0 23 59 59)
  else if pt == "yearly" then
    some (dateUTCms n.year 0 1 0 0 0,
          dateUTCms n.year 11 31 23 59 59)
  else none

/-- Advancing the 0-based month index by one advances the month start by at
least 28 days (the iterator step of the yearly branch strictly increases). -/
theorem monthStartMs_succ (y mIdx : Int) :
    monthStartMs y mIdx + 28 * 86400000 ≤ monthStartMs y (mIdx + 1) := by
  simp only [monthStartMs, dateUTCms, daysFromCivil]
  split_ifs <;> omega

/-- Iteration of the yearly branch of getStats (lines 258-262): starting
from the civil pair carried by the iterator date (always the first of a
month, midnight), add the bucket key of the iterator month and step one
month forward while the iterator does not pass periodEnd. -/
def yearlyLoop (y mIdx : Int) (periodEndMs : Int) (acc : List (List Char)) :
    List (List Char) :=
  if h : monthStartMs y mIdx ≤ periodEndMs then
    yearlyLoop (if mIdx = 11 then y + 1 else y) (if mIdx = 11 then 0 else mIdx + 1)
      periodEndMs (setAdd acc (mkKey y (mIdx + 1)))
  else acc
termination_by (periodEndMs + 1 - monthStartMs y mIdx).toNat
decreasing_by
  have hs := monthStartMs_succ y mIdx
  split_ifs with h11
  · have he : monthStartMs (y + 1) 0 = monthStartMs y (mIdx + 1) := by
      subst h11
      unfold monthStartMs dateUTCms
      norm_num
    omega
  · omega

/-- Month-range resolution of getStats (lines 238-274): the previous-month
bucket (computed through the Date.UTC month normalisation), the period
months per period type, the future-month filter, and the lexicographic
sort of the key strings. -/
def resolveMonths (periodType : String) (periodStart periodEnd now : DateParts) :
    List (List Char) :=
  let startMonth := periodStart.utcMonth + 1
  let startYear := periodStart.utcFullYear
  let endMonth := periodEnd.utcMonth + 1
  let endYear := periodEnd.utcFullYear
  let prevKey := mkKey (startYear + (startMonth - 2) / 12) ((startMonth - 2) % 12 + 1)
  let s0 := setAdd [] prevKey
  let s1 :=
    if periodType == "daily" || periodType == "weekly" || periodType == "monthly" then
      let t := setAdd s0 (mkKey startYear startMonth)
      if periodType == "weekly" && startMonth != endMonth then
        setAdd t (mkKey endYear endMonth)
      else t
    else if periodType == "yearly" then
      let t := setAdd s0 (mkKey (startYear - 1) 12)
      yearlyLoop startYear 0 periodEnd.ms t
    else s0
  sortKeys (s1.filter (keepKey now.utcFullYear (now.utcMonth + 1)))

/-! ## Fetching -/

/-- JS String.prototype.padStart with target length 2 and pad character 0. -/
def padStart2 (s : List Char) : List Char :=
  if 2 ≤ s.length then s else List.replicate (2 - s.length) '0' ++ s

/-- Archive URL for a month bucket (year and month as the split segments
of the bucket key; the month is zero-padded to two characters). -/
def monthURL (username : String) (year month : List Char) : String :=
  "https://api.chess.com/pub/player/" ++ username ++ "/games/"
    ++ String.mk year ++ "/" ++ String.mk (padStart2 month)

/-- Per-month fetch wrapper (lines 278-294): a thrown error, a non-success
status or a payload without a games field all yield the empty list; only a
successful response contributes its games.  The function is total: no
outcome escapes to the caller. -/
def fetchGamesForMonth (oracle : String → FetchOutcome) (username : String)
    (year month : List Char) : List Game :=
  match oracle (monthURL username year month) with
  | .ok games => games
  | _ => []

/-- Fetch loop of getStats (lines 297-302): split each key into its year
and month segments, fetch the bucket, and concatenate all results in key
order. -/
def fetchAll (oracle : String → FetchOutcome) (username : String)
    (keys : List (List Char)) : List Game :=
  (keys.map (fun k =>
    let parts := splitDash k
    fetchGamesForMonth oracle username (parts.getD 0 []) (parts.getD 1 []))).flatten

/-! ## Aggregation -/

/-- ASCII lowercasing of a character, the fragment of
String.prototype.toLowerCase relevant to chess.com usernames. -/
def lowerChar (c : Char) : Char :=
  if 'A' ≤ c ∧ c ≤ 'Z' then Char.ofNat (c.toNat + 32) else c

/-- Lowercasing of a string, as the toLowerCase calls of the source. -/
def lowerStr (s : String) : String := String.mk (s.data.map lowerChar)

/-- Millisecond end time of a game, new Date(g.end_time * 1000). -/
def gameEndMs (g : Game) : Int := g.end_time * 1000

/-- Case-insensitive test whether the white participant is the requested
user (both sides lowercased, as in the source comparisons). -/
def matchesWhite (username : String) (g : Game) : Bool :=
  lowerStr g.white.username == lowerStr username

/-- Rating attribution of the source: white's rating when the white
username matches case-insensitively, otherwise black's rating (with no
check that black matches). -/
def subjectRating (username : String) (g : Game) : Int :=
  if matchesWhite username g then g.white.rating else g.black.rating

/-- Period-membership predicate of the gamesInPeriod filter (lines
305-308): end time within the closed interval of the period. -/
def inPeriodB (psMs peMs : Int) (g : Game) : Bool :=
  decide (psMs ≤ gameEndMs g) && decide (gameEndMs g ≤ peMs)

/-- In-place sort of allGames (line 315): ascending stable sort by
end_time, realised by insertion sort, which is stable and sorted and hence
extensionally the ECMAScript sort with comparator a.end_time - b.end_time. -/
def sortGames (l : List Game) : List Game :=
  List.insertionSort (fun a b => a.end_time ≤ b.end_time) l

/-- The filter-then-pop idiom of lines 319: last element, in sorted order,
among the games of the given class ending strictly before the period. -/
def lastBeforeStart (psMs : Int) (sorted : List Game) (mode : String) : Option Game :=
  (sorted.filter (fun g => g.time_class == mode && decide (gameEndMs g < psMs))).getLast?

/-- Per-class restriction of the in-period games (modeGames, line 330). -/
def modeGamesOf (gamesInPeriod : List Game) (mode : String) : List Game :=
  gamesInPeriod.filter (fun g => g.time_class == mode)

/-- End rating of a class (lines 333-338): subject rating of the last
element of modeGames, none when the class has no in-period games. -/
def endRatingOf (username : String) (gamesInPeriod : List Game) (mode : String) :
    Option Int :=
  ((modeGamesOf gamesInPeriod mode).getLast?).map (subjectRating username)

/-- Start rating of a class: the rating from the last pre-period game of
the class (lines 318-326) when one exists, otherwise the fallback to the
first element of modeGames (lines 341-348). -/
def startRatingOf (username : String) (psMs : Int) (sorted gamesInPeriod : List Game)
    (mode : String) : Option Int :=
  match lastBeforeStart psMs sorted mode with
  | some g => some (subjectRating username g)
  | none => ((modeGamesOf gamesInPeriod mode).head?).map (subjectRating username)

/-- Aggregation core of getStats (lines 304-357).  Note the order of
operations of the source: gamesInPeriod is filtered from allGames before
the sort of line 315, so it keeps the bucket-concatenation order, while
the pre-period scan works on the sorted list. -/
def aggregate (username : String) (psMs peMs : Int) (allGames : List Game) :
    StatsResult :=
  let gamesInPeriod := allGames.filter (inPeriodB psMs peMs)
  let sorted := sortGames allGames
  { stats := ⟨(modeGamesOf gamesInPeriod "rapid").length,
              (modeGamesOf gamesInPeriod "blitz").length,
              (modeGamesOf gamesInPeriod "bullet").length⟩
    startRatings := ⟨startRatingOf username psMs sorted gamesInPeriod "rapid",
                     startRatingOf username psMs sorted gamesInPeriod "blitz",
                     startRatingOf username psMs sorted gamesInPeriod "bullet"⟩
    endRatings := ⟨endRatingOf username gamesInPeriod "rapid",
                   endRatingOf username gamesInPeriod "blitz",
                   endRatingOf username gamesInPeriod "bullet"⟩
    gamesInPeriod := gamesInPeriod }

/-- Whole getStats pipeline (lines 234-358): resolve the month buckets,
fetch and concatenate the archives, aggregate.  The sampled current date
of line 239 is passed explicitly. -/
def getStats (oracle : String → FetchOutcome) (username : String)
    (periodStart periodEnd : DateParts) (periodType : String) (now : DateParts) :
    StatsResult :=
  aggregate username periodStart.ms periodEnd.ms
    (fetchAll oracle username (resolveMonths periodType periodStart periodEnd now))

/-! ## Helper lemmas on decimal keys -/

/-- Digit characters produced by digitChar lie between 0 and 9. -/
theorem digitChar_bounds {d : Nat} (h : d < 10) :
    '0' ≤ digitChar d ∧ digitChar d ≤ '9' := by
  interval_cases d <;> exact ⟨by decide, by decide⟩

/-- Code of a digit character produced by digitChar. -/
theorem digitChar_toNat {d : Nat} (h : d < 10) : (digitChar d).toNat = 48 + d := by
  interval_cases d <;> decide

/-- Every character emitted by natToRevDigits is a decimal digit. -/
theorem natToRevDigits_digits :
    ∀ fuel n, ∀ c ∈ natToRevDigits fuel n, '0' ≤ c ∧ c ≤ '9' := by
  intro fuel
  induction fuel with
  | zero => intro n c hc; simp [natToRevDigits] at hc
  | succ f ih =>
    intro n c hc
    match n with
    | 0 => simp [natToRevDigits] at hc
    | m + 1 =>
      simp only [natToRevDigits, List.mem_cons] at hc
      rcases hc with h | h
      · subst h; exact digitChar_bounds (Nat.mod_lt _ (by norm_num))
      · exact ih ((m + 1) / 10) c h

/-- Little-endian value of a digit character list. -/
def vLE : List Char → Nat
  | [] => 0
  | c :: r => (c.toNat - 48) + 10 * vLE r

/-- natToRevDigits renders the little-endian digits of its argument. -/
theorem vLE_natToRevDigits : ∀ fuel n, n ≤ fuel → vLE (natToRevDigits fuel n) = n := by
  intro fuel
  induction fuel with
  | zero => intro n hn; interval_cases n; simp [natToRevDigits, vLE]
  | succ f ih =>
    intro n hn
    match n with
    | 0 => simp [natToRevDigits, vLE]
    | m + 1 =>
      simp only [natToRevDigits, vLE]
      rw [digitChar_toNat (Nat.mod_lt _ (by norm_num)), ih ((m + 1) / 10) (by omega)]
      omega

/-- Folding big-endian over the reverse agrees with the little-endian value. -/
theorem bigEndianVal_reverse (l : List Char) : bigEndianVal l.reverse = vLE l := by
  induction l with
  | nil => rfl
  | cons c r ih =>
    simp only [List.reverse_cons, bigEndianVal, List.foldl_append, List.foldl_cons,
      List.foldl_nil, vLE]
    simp only [bigEndianVal] at ih
    omega

/-- The decimal rendering evaluates back to the rendered number. -/
theorem bigEndianVal_natDigits (n : Nat) : bigEndianVal (natDigits n) = n := by
  unfold natDigits
  split
  · next h => subst h; decide
  · next h => rw [bigEndianVal_reverse, vLE_natToRevDigits _ _ (Nat.le_succ n)]

/-- Every character of the decimal rendering is a digit. -/
theorem natDigits_digits (n : Nat) : ∀ c ∈ natDigits n, '0' ≤ c ∧ c ≤ '9' := by
  unfold natDigits
  split
  · intro c hc; simp at hc; subst hc; exact ⟨by decide, by decide⟩
  · intro c hc; rw [List.mem_reverse] at hc; exact natToRevDigits_digits _ _ c hc

/-- The dash never occurs in a decimal rendering. -/
theorem dash_not_mem_natDigits (n : Nat) : '-' ∉ natDigits n := by
  intro h
  have := (natDigits_digits n '-' h).1
  exact absurd this (by decide)

/-- Number applied to a decimal rendering recovers the number. -/
theorem jsNum_natDigits (n : Nat) : jsNum (natDigits n) = some (n : Int) := by
  unfold jsNum
  rw [if_pos, bigEndianVal_natDigits]
  rw [List.all_eq_true]
  intro c hc
  have h := natDigits_digits n c hc
  simp [h.1, h.2]

/-- Rendering of a nonnegative integer. -/
theorem intToChars_nonneg {i : Int} (h : 0 ≤ i) : intToChars i = natDigits i.toNat := by
  unfold intToChars
  rw [if_neg (by omega)]

/-- Splitting a dash-free list returns the single segment. -/
theorem splitDash_no_dash {a : List Char} (h : '-' ∉ a) : splitDash a = [a] := by
  induction a with
  | nil => rfl
  | cons c r ih =>
    have h1 : ¬ c = '-' := fun e => h (by simp [e])
    have h2 : '-' ∉ r := fun e => h (List.mem_cons_of_mem _ e)
    rw [splitDash.eq_2, if_neg h1, ih h2]

/-- Splitting past the first dash peels off the first segment. -/
theorem splitDash_append {a : List Char} (b : List Char) (h : '-' ∉ a) :
    splitDash (a ++ '-' :: b) = a :: splitDash b := by
  induction a with
  | nil => simp [splitDash]
  | cons c r ih =>
    have h1 : ¬ c = '-' := fun e => h (by simp [e])
    have h2 : '-' ∉ r := fun e => h (List.mem_cons_of_mem _ e)
    simp only [List.cons_append]
    rw [splitDash.eq_2, if_neg h1, ih h2]

/-- Splitting a bucket key built from nonnegative numbers yields exactly the
year segment and the month segment. -/
theorem splitDash_mkKey {y m : Int} (hy : 0 ≤ y) (hm : 0 ≤ m) :
    splitDash (mkKey y m) = [natDigits y.toNat, natDigits m.toNat] := by
  unfold mkKey
  rw [intToChars_nonneg hy, intToChars_nonneg hm,
    splitDash_append _ (dash_not_mem_natDigits _),
    splitDash_no_dash (dash_not_mem_natDigits _)]

/-- Behaviour of the future-month filter on a well-formed bucket key: the
key is kept exactly when its bucket is not strictly after the bucket of
the current date. -/
theorem keepKey_mkKey {y m : Int} (hy : 0 ≤ y) (hm : 0 ≤ m) (nY nM : Int) :
    keepKey nY nM (mkKey y m) = true ↔ (y ≤ nY ∧ (y = nY → m ≤ nM)) := by
  unfold keepKey
  rw [splitDash_mkKey hy hm]
  simp only [List.get?_cons_zero, List.get?_cons_succ, jsNum_natDigits]
  simp only [optGT, optEqI, Int.toNat_of_nonneg hy, Int.toNat_of_nonneg hm]
  split_ifs with hgt heq <;> simp_all

/-! ## Helper lemmas on the bucket set and the yearly iteration -/

/-- Set insertion preserves distinctness of the keys. -/
theorem setAdd_nodup {l : List (List Char)} (h : l.Nodup) (s : List Char) :
    (setAdd l s).Nodup := by
  unfold setAdd
  split
  · exact h
  · next hs =>
    refine List.Nodup.append h (List.nodup_singleton _) ?_
    intro a ha hb
    simp at hb
    subst hb
    exact hs ha

/-- The inserted key is a member of the set. -/
theorem mem_setAdd_self (l : List (List Char)) (s : List Char) : s ∈ setAdd l s := by
  unfold setAdd
  split
  · assumption
  · simp

/-- Existing members survive a set insertion. -/
theorem mem_setAdd_of_mem {l : List (List Char)} {a : List Char} (h : a ∈ l)
    (s : List Char) : a ∈ setAdd l s := by
  unfold setAdd
  split
  · exact h
  · simp [h]

/-- A member of the extended set is an old member or the inserted key. -/
theorem mem_setAdd_cases {l : List (List Char)} {s a : List Char}
    (h : a ∈ setAdd l s) : a ∈ l ∨ a = s := by
  unfold setAdd at h
  split at h
  · exact Or.inl h
  · simp at h
    rcases h with h | h
    · exact Or.inl h
    · exact Or.inr h

/-- The yearly iteration preserves distinctness of the key set. -/
theorem yearlyLoop_nodup (y mIdx pe : Int) (acc : List (List Char))
    (h : acc.Nodup) : (yearlyLoop y mIdx pe acc).Nodup := by
  induction y, mIdx, pe, acc using yearlyLoop.induct with
  | case1 y mIdx pe acc hle ih =>
    rw [yearlyLoop, dif_pos hle]
    exact ih (setAdd_nodup h _)
  | case2 y mIdx pe acc hle =>
    rw [yearlyLoop, dif_neg hle]
    exact h

/-- Keys present before the yearly iteration are still present after it. -/
theorem mem_yearlyLoop_of_mem (y mIdx pe : Int) (acc : List (List Char))
    {a : List Char} (h : a ∈ acc) : a ∈ yearlyLoop y mIdx pe acc := by
  induction y, mIdx, pe, acc using yearlyLoop.induct with
  | case1 y mIdx pe acc hle ih =>
    rw [yearlyLoop, dif_pos hle]
    exact ih (mem_setAdd_of_mem h _)
  | case2 y mIdx pe acc hle =>
    rw [yearlyLoop, dif_neg hle]
    exact h

/-- Every key produced by the yearly iteration (beyond the ones it was
seeded with) is a well-formed bucket key of a month of the starting year
or later. -/
theorem mem_yearlyLoop_shape (y mIdx pe : Int) (acc : List (List Char))
    (h0 : 0 ≤ mIdx) (h1 : mIdx ≤ 11) :
    ∀ a ∈ yearlyLoop y mIdx pe acc,
      a ∈ acc ∨ ∃ yy mm : Int, y ≤ yy ∧ 1 ≤ mm ∧ mm ≤ 12 ∧ a = mkKey yy mm := by
  induction y, mIdx, pe, acc using yearlyLoop.induct with
  | case1 y mIdx pe acc hle ih =>
    intro a ha
    rw [yearlyLoop, dif_pos hle] at ha
    have h0' : 0 ≤ (if mIdx = 11 then 0 else mIdx + 1) := by split <;> omega
    have h1' : (if mIdx = 11 then 0 else mIdx + 1) ≤ 11 := by split <;> omega
    rcases ih h0' h1' a ha with hmem | ⟨yy, mm, hy, hm1, hm2, he⟩
    · rcases mem_setAdd_cases hmem with hacc | hkey
      · exact Or.inl hacc
      · exact Or.inr ⟨y, mIdx + 1, le_refl y, by omega, by omega, hkey⟩
    · refine Or.inr ⟨yy, mm, ?_, hm1, hm2, he⟩
      by_cases h11 : mIdx = 11 <;> simp [h11] at hy <;> omega
  | case2 y mIdx pe acc hle =>
    intro a ha
    rw [yearlyLoop, dif_neg hle] at ha
    exact Or.inl ha

/-! ## Sorting instances and facts -/

instance : IsTotal Game (fun a b => a.end_time ≤ b.end_time) :=
  ⟨fun a b => le_total a.end_time b.end_time⟩

instance : IsTrans Game (fun a b => a.end_time ≤ b.end_time) :=
  ⟨fun _ _ _ => le_trans⟩

/-- The sorted allGames list is a permutation of the input. -/
theorem sortGames_perm (l : List Game) : (sortGames l).Perm l :=
  List.perm_insertionSort _ l

/-- The sorted allGames list is sorted by end time. -/
theorem sortGames_sorted (l : List Game) :
    (sortGames l).Sorted (fun a b => a.end_time ≤ b.end_time) :=
  List.sorted_insertionSort _ l

/-- The sorted key list is a permutation of the filtered key set. -/
theorem sortKeys_perm (l : List (List Char)) : (sortKeys l).Perm l :=
  List.perm_insertionSort _ l

/-- The sorted key list is lexicographically sorted. -/
theorem sortKeys_sorted (l : List (List Char)) : (sortKeys l).Sorted (· ≤ ·) :=
  List.sorted_insertionSort _ l

/-- Counting in a distinct list that holds a key yields one occurrence. -/
theorem count_eq_one_of_nodup_mem {a : List Char} : ∀ {l : List (List Char)},
    l.Nodup → a ∈ l → l.count a = 1 := by
  intro l
  induction l with
  | nil => intro _ h; simp at h
  | cons b r ih =>
    intro hn hm
    rw [List.count_cons]
    rcases List.mem_cons.mp hm with he | hr
    · subst he
      have hna : a ∉ r := (List.nodup_cons.mp hn).1
      rw [List.count_eq_zero.mpr hna]
      simp
    · rw [ih (List.nodup_cons.mp hn).2 hr]
      have hne : ¬ a = b := fun e => (List.nodup_cons.mp hn).1 (e ▸ hr)
      simp [hne]
      exact fun e => hne e.symm

/-! ## Calendar helper lemmas -/

/-- daysFromCivil is linear in the day argument. -/
theorem daysFromCivil_day (y m d : Int) :
    daysFromCivil y m d = daysFromCivil y m 1 + (d - 1) := by
  simp only [daysFromCivil]
  split_ifs <;> ring

/-- Date.UTC decomposed as the month start plus linear offsets of day and
time of day. -/
theorem dateUTCms_shift (y mIdx d h mi s : Int) :
    dateUTCms y mIdx d h mi s =
      monthStartMs y mIdx + (d - 1) * 86400000 + h * 3600000 + mi * 60000 + s * 1000 := by
  simp only [dateUTCms, monthStartMs]
  rw [daysFromCivil_day]
  ring

/-- For an in-range month index the normalisation inside Date.UTC is the
identity. -/
theorem monthStartMs_id {y mIdx : Int} (h0 : 0 ≤ mIdx) (h1 : mIdx ≤ 11) :
    monthStartMs y mIdx = daysFromCivil y (mIdx + 1) 1 * 86400000 := by
  unfold monthStartMs dateUTCms
  have e1 : mIdx / 12 = 0 := by omega
  have e2 : mIdx % 12 = mIdx := by omega
  rw [e1, e2]
  norm_num

/-- January the first is at least eleven 28-day steps before December the
first of the same year. -/
theorem monthStartMs_jan_dec (y : Int) :
    monthStartMs y 0 + 11 * (28 * 86400000) ≤ monthStartMs y 11 := by
  have h0 := monthStartMs_succ y 0
  have h1 := monthStartMs_succ y 1
  have h2 := monthStartMs_succ y 2
  have h3 := monthStartMs_succ y 3
  have h4 := monthStartMs_succ y 4
  have h5 := monthStartMs_succ y 5
  have h6 := monthStartMs_succ y 6
  have h7 := monthStartMs_succ y 7
  have h8 := monthStartMs_succ y 8
  have h9 := monthStartMs_succ y 9
  have h10 := monthStartMs_succ y 10
  norm_num at *
  omega

/-- C8: for every reference instant (given by its civil UTC coordinates,
with the month index in range as getUTCMonth guarantees) and every period
type among daily, weekly, monthly and yearly, the computed window
satisfies periodStart ≤ periodEnd; and for weekly, periodStart is midnight
UTC of the most recent Monday (day number d is a Monday exactly when
(d + 4) % 7 = 1, the epoch day being a Thursday): it is a day start, that
day is a Monday, it is at most six days before the reference day, it
equals the reference day when that day is itself a Monday, and periodEnd
is 23:59:59 UTC of the reference day. -/
theorem C8_window (pt : String) (n : CivilNow)
    (hm0 : 0 ≤ n.monthIdx) (hm1 : n.monthIdx ≤ 11)
    (hpt : pt = "daily" ∨ pt = "weekly" ∨ pt = "monthly" ∨ pt = "yearly") :
    ∃ psMs peMs : Int, periodWindow pt n = some (psMs, peMs) ∧ psMs ≤ peMs ∧
      (pt = "weekly" → ∃ startDay : Int,
        psMs = startDay * 86400000 ∧ (startDay + 4) % 7 = 1 ∧
        startDay ≤ nowDayNum n ∧ nowDayNum n - startDay ≤ 6 ∧
        ((nowDayNum n + 4) % 7 = 1 → startDay = nowDayNum n) ∧
        peMs = nowDayNum n * 86400000 + 86399000) := by
  have hrel : nowDayNum n = daysFromCivil n.year (n.monthIdx + 1) 1 + (n.day - 1) := by
    unfold nowDayNum
    rw [daysFromCivil_day]
  rcases hpt with h | h | h | h <;> subst h
  · simp only [periodWindow]
    rw [if_pos (by decide)]
    refine ⟨_, _, rfl, ?_, ?_⟩
    · rw [dateUTCms_shift, dateUTCms_shift]
      omega
    · intro he
      exact absurd he (by decide)
  · simp only [periodWindow]
    rw [if_neg (by decide), if_pos (by decide)]
    refine ⟨_, _, rfl, ?_, ?_⟩
    · rw [dateUTCms_shift, dateUTCms_shift]
      split_ifs <;> omega
    · intro _
      refine ⟨nowDayNum n - (if (nowDayNum n + 4) % 7 = 0 then 6 else (nowDayNum n + 4) % 7 - 1),
        ?_, ?_, ?_, ?_, ?_, ?_⟩
      · rw [dateUTCms_shift, monthStartMs_id hm0 hm1]
        split_ifs <;> omega
      · split_ifs <;> omega
      · split_ifs <;> omega
      · split_ifs <;> omega
      · intro hmon
        split_ifs <;> omega
      · rw [dateUTCms_shift, monthStartMs_id hm0 hm1]
        omega
  · simp only [periodWindow]
    rw [if_neg (by decide), if_neg (by decide), if_pos (by decide)]
    refine ⟨_, _, rfl, ?_, ?_⟩
    · rw [dateUTCms_shift, dateUTCms_shift]
      have := monthStartMs_succ n.year n.monthIdx
      omega
    · intro he
      exact absurd he (by decide)
  · simp only [periodWindow]
    rw [if_neg (by decide), if_neg (by decide), if_neg (by decide), if_pos (by decide)]
    refine ⟨_, _, rfl, ?_, ?_⟩
    · rw [dateUTCms_shift, dateUTCms_shift]
      have := monthStartMs_jan_dec n.year
      omega
    · intro he
      exact absurd he (by decide)

/-- Witness for C8 at a concrete reference instant, Sunday 2025-10-05
(getUTCMonth = 9, getUTCDate = 5), period type weekly. -/
theorem C8_window_witness :
    ∃ psMs peMs : Int,
      periodWindow "weekly" ⟨2025, 9, 5⟩ = some (psMs, peMs) ∧ psMs ≤ peMs ∧
      ("weekly" = "weekly" → ∃ startDay : Int,
        psMs = startDay * 86400000 ∧ (startDay + 4) % 7 = 1 ∧
        startDay ≤ nowDayNum ⟨2025, 9, 5⟩ ∧ nowDayNum ⟨2025, 9, 5⟩ - startDay ≤ 6 ∧
        ((nowDayNum ⟨2025, 9, 5⟩ + 4) % 7 = 1 → startDay = nowDayNum ⟨2025, 9, 5⟩) ∧
        peMs = nowDayNum ⟨2025, 9, 5⟩ * 86400000 + 86399000) :=
  C8_window "weekly" ⟨2025, 9, 5⟩ (by decide) (by decide) (Or.inr (Or.inl rfl))

/-! ## The previous-month bucket -/

/-- Year of the calendar month immediately preceding the month of
periodStart, as the claim describes it: the same year, except that a
January start rolls back to the previous year. -/
def prevBucketYear (ps : DateParts) : Int :=
  if ps.utcMonth = 0 then ps.utcFullYear - 1 else ps.utcFullYear

/-- Month (1..12) of the calendar month immediately preceding the month of
periodStart: the previous month number, with January rolling back to
December. -/
def prevBucketMonth (ps : DateParts) : Int :=
  if ps.utcMonth = 0 then 12 else ps.utcMonth

/-- The Date.UTC normalisation used by getStats to compute the
previous-month bucket yields exactly the preceding calendar month. -/
theorem prev_pair_eq (ps : DateParts) (h1 : 0 ≤ ps.utcMonth) (h2 : ps.utcMonth ≤ 11) :
    ps.utcFullYear + (ps.utcMonth + 1 - 2) / 12 = prevBucketYear ps ∧
    (ps.utcMonth + 1 - 2) % 12 + 1 = prevBucketMonth ps := by
  unfold prevBucketYear prevBucketMonth
  constructor <;> split_ifs <;> omega

/-- C5: for every period type and every periodStart (with valid civil
fields and a positive year), provided the preceding calendar month is not
in the future of the sampled current date (which holds in every call,
where periodStart is derived from the current date), the resolved bucket
list contains the key of the calendar month immediately preceding
periodStart's month exactly once; a January periodStart yields December of
the prior year, with no incorrect wrap. -/
theorem C5_prev_bucket (pt : String) (ps pe now : DateParts)
    (h1 : 0 ≤ ps.utcMonth) (h2 : ps.utcMonth ≤ 11) (h3 : 1 ≤ ps.utcFullYear)
    (hn : prevBucketYear ps < now.utcFullYear ∨
          (prevBucketYear ps = now.utcFullYear ∧ prevBucketMonth ps ≤ now.utcMonth + 1)) :
    (resolveMonths pt ps pe now).count (mkKey (prevBucketYear ps) (prevBucketMonth ps)) = 1 := by
  have hpair := prev_pair_eq ps h1 h2
  have hy0 : 0 ≤ prevBucketYear ps := by unfold prevBucketYear; split_ifs <;> omega
  have hm12 : 1 ≤ prevBucketMonth ps ∧ prevBucketMonth ps ≤ 12 := by
    unfold prevBucketMonth; split_ifs <;> omega
  have hkeep : keepKey now.utcFullYear (now.utcMonth + 1)
      (mkKey (prevBucketYear ps) (prevBucketMonth ps)) = true :=
    (keepKey_mkKey hy0 (by omega) _ _).mpr (by omega)
  simp only [resolveMonths]
  rw [hpair.1, hpair.2]
  apply count_eq_one_of_nodup_mem
  · apply List.Perm.nodup (sortKeys_perm _).symm
    apply List.Nodup.filter
    split_ifs
    · exact setAdd_nodup (setAdd_nodup (setAdd_nodup List.nodup_nil _) _) _
    · exact setAdd_nodup (setAdd_nodup List.nodup_nil _) _
    · exact yearlyLoop_nodup _ _ _ _ (setAdd_nodup (setAdd_nodup List.nodup_nil _) _)
    · exact setAdd_nodup List.nodup_nil _
  · rw [List.Perm.mem_iff (sortKeys_perm _)]
    rw [List.mem_filter]
    refine ⟨?_, hkeep⟩
    split_ifs
    · exact mem_setAdd_of_mem (mem_setAdd_of_mem (mem_setAdd_self _ _) _) _
    · exact mem_setAdd_of_mem (mem_setAdd_self _ _) _
    · exact mem_yearlyLoop_of_mem _ _ _ _ (mem_setAdd_of_mem (mem_setAdd_self _ _) _)
    · exact mem_setAdd_self _ _

/-- Witness for C5: a monthly request with periodStart 2025-09-01
(getUTCMonth = 8) and current date in October 2025 resolves a set holding
the August 2025 bucket exactly once. -/
theorem C5_prev_bucket_witness :
    (resolveMonths "monthly" ⟨0, 2025, 8⟩ ⟨0, 2025, 8⟩ ⟨0, 2025, 9⟩).count
      (mkKey (prevBucketYear ⟨0, 2025, 8⟩) (prevBucketMonth ⟨0, 2025, 8⟩)) = 1 :=
  C5_prev_bucket "monthly" ⟨0, 2025, 8⟩ ⟨0, 2025, 8⟩ ⟨0, 2025, 9⟩
    (by decide) (by decide) (by decide) (by decide)

/-- C7: for every period type, periodStart, periodEnd (with valid civil
fields, positive start year and nonnegative end year) and every sampled
current date, every key of the resolved bucket list is a well-formed
year-month key whose bucket is not strictly after the bucket containing
the current date. -/
theorem C7_no_future_bucket (pt : String) (ps pe now : DateParts)
    (h1 : 0 ≤ ps.utcMonth) (h2 : ps.utcMonth ≤ 11) (h3 : 1 ≤ ps.utcFullYear)
    (h4 : 0 ≤ pe.utcMonth) (h5 : pe.utcMonth ≤ 11) (h6 : 0 ≤ pe.utcFullYear) :
    ∀ k ∈ resolveMonths pt ps pe now,
      ∃ y m : Int, k = mkKey y m ∧ 0 ≤ y ∧ 1 ≤ m ∧ m ≤ 12 ∧
        (y < now.utcFullYear ∨ (y = now.utcFullYear ∧ m ≤ now.utcMonth + 1)) := by
  intro k hk
  simp only [resolveMonths] at hk
  rw [List.Perm.mem_iff (sortKeys_perm _)] at hk
  rw [List.mem_filter] at hk
  obtain ⟨hmem, hkeep⟩ := hk
  have hshape : ∃ y m : Int, k = mkKey y m ∧ 0 ≤ y ∧ 1 ≤ m ∧ m ≤ 12 := by
    split_ifs at hmem
    · rcases mem_setAdd_cases hmem with hmem2 | hk3
      · rcases mem_setAdd_cases hmem2 with hmem3 | hk2
        · rcases mem_setAdd_cases hmem3 with h0 | hk1
          · simp at h0
          · exact ⟨_, _, hk1, by omega, by omega, by omega⟩
        · exact ⟨_, _, hk2, by omega, by omega, by omega⟩
      · exact ⟨_, _, hk3, by omega, by omega, by omega⟩
    · rcases mem_setAdd_cases hmem with hmem3 | hk2
      · rcases mem_setAdd_cases hmem3 with h0 | hk1
        · simp at h0
        · exact ⟨_, _, hk1, by omega, by omega, by omega⟩
      · exact ⟨_, _, hk2, by omega, by omega, by omega⟩
    · rcases mem_yearlyLoop_shape _ _ _ _ (le_refl 0) (by norm_num) k hmem with
        hacc | ⟨yy, mm, hyy, hmm1, hmm2, he⟩
      · rcases mem_setAdd_cases hacc with hmem3 | hk2
        · rcases mem_setAdd_cases hmem3 with h0 | hk1
          · simp at h0
          · exact ⟨_, _, hk1, by omega, by omega, by omega⟩
        · exact ⟨_, _, hk2, by omega, by omega, by omega⟩
      · exact ⟨yy, mm, he, by omega, hmm1, hmm2⟩
    · rcases mem_setAdd_cases hmem with h0 | hk1
      · simp at h0
      · exact ⟨_, _, hk1, by omega, by omega, by omega⟩
  obtain ⟨y, m, hky, hy0, hmm1, hmm2⟩ := hshape
  subst hky
  rw [keepKey_mkKey hy0 (by omega) _ _] at hkeep
  exact ⟨y, m, rfl, hy0, hmm1, hmm2, by omega⟩

/-- Witness for C7: the August 2025 bucket of a concrete monthly
resolution is not after the October 2025 current bucket. -/
theorem C7_no_future_bucket_witness :
    ∃ y m : Int, mkKey 2025 8 = mkKey y m ∧ 0 ≤ y ∧ 1 ≤ m ∧ m ≤ 12 ∧
      (y < 2025 ∨ (y = 2025 ∧ m ≤ 9 + 1)) :=
  C7_no_future_bucket "monthly" ⟨0, 2025, 8⟩ ⟨0, 2025, 8⟩ ⟨0, 2025, 9⟩
    (by decide) (by decide) (by decide) (by decide) (by decide) (by decide)
    (mkKey 2025 8) (by decide)

/-! ## Fetch-failure lemmas -/

/-- With an oracle that never returns a successful games payload, the
fetch loop contributes nothing. -/
theorem fetchAll_eq_nil {oracle : String → FetchOutcome} (u : String)
    (keys : List (List Char)) (h : ∀ url gs, oracle url ≠ .ok gs) :
    fetchAll oracle u keys = [] := by
  induction keys with
  | nil => rfl
  | cons k r ih =>
    unfold fetchAll at *
    simp only [List.map_cons, List.flatten_cons, ih]
    unfold fetchGamesForMonth
    split
    · next gs he => exact absurd he (h _ gs)
    · simp

/-- C4: fetch failures are absorbed.  First, a bucket whose fetch does not
succeed (thrown network or parse error, non-success HTTP status, or a
payload without a games list) contributes the empty list, and
fetchGamesForMonth is a total function, so nothing escapes to the caller.
Second, the fetch loop is the concatenation of the per-bucket results, so
the remaining buckets are fetched regardless of any bucket's failure.
Third, when every fetch fails, getStats returns the result with all
per-class counts zero, all start and end ratings null and an empty
in-period list, rather than an error. -/
theorem C4_fetch_failures_absorbed :
    (∀ (oracle : String → FetchOutcome) (u : String) (y m : List Char),
        (∀ gs, oracle (monthURL u y m) ≠ .ok gs) → fetchGamesForMonth oracle u y m = []) ∧
    (∀ (oracle : String → FetchOutcome) (u : String) (keys : List (List Char)),
        fetchAll oracle u keys = (keys.map (fun k =>
          fetchGamesForMonth oracle u ((splitDash k).getD 0 []) ((splitDash k).getD 1 []))).flatten) ∧
    (∀ (oracle : String → FetchOutcome) (u : String) (ps pe now : DateParts) (pt : String),
        (∀ url gs, oracle url ≠ .ok gs) →
        getStats oracle u ps pe pt now =
          ⟨⟨0, 0, 0⟩, ⟨none, none, none⟩, ⟨none, none, none⟩, []⟩) := by
  refine ⟨?_, ?_, ?_⟩
  · intro oracle u y m h
    unfold fetchGamesForMonth
    split
    · next gs he => exact absurd he (h gs)
    · rfl
  · intro oracle u keys
    rfl
  · intro oracle u ps pe now pt h
    unfold getStats
    rw [fetchAll_eq_nil u _ h]
    rfl

/-- Witness for C4: a constant HTTP-failure oracle on a concrete daily
request yields the all-empty result. -/
theorem C4_fetch_failures_absorbed_witness :
    getStats (fun _ => FetchOutcome.httpFailure) "alice" ⟨0, 2025, 0⟩ ⟨86399000, 2025, 0⟩
      "daily" ⟨0, 2025, 0⟩ = ⟨⟨0, 0, 0⟩, ⟨none, none, none⟩, ⟨none, none, none⟩, []⟩ :=
  C4_fetch_failures_absorbed.2.2 _ "alice" ⟨0, 2025, 0⟩ ⟨86399000, 2025, 0⟩ ⟨0, 2025, 0⟩
    "daily" (fun _ _ h => FetchOutcome.noConfusion h)

/-! ## Aggregation lemmas -/

/-- The in-period list of the aggregation is the period filter of the
input, applied before any sorting. -/
theorem aggregate_gamesInPeriod (u : String) (psMs peMs : Int) (l : List Game) :
    (aggregate u psMs peMs l).gamesInPeriod = l.filter (inPeriodB psMs peMs) := rfl

/-- C6: the in-period list of the aggregation is exactly the sublist of
input games whose end time lies in the closed interval of the period (both
endpoints included), and each per-class count is the number of in-period
games of that class; the total length is that of the filtered sublist by
the first equation. -/
theorem C6_gamesInPeriod_exact (u : String) (psMs peMs : Int) (l : List Game) :
    (aggregate u psMs peMs l).gamesInPeriod = l.filter (inPeriodB psMs peMs) ∧
    (∀ g : Game, g ∈ (aggregate u psMs peMs l).gamesInPeriod ↔
        g ∈ l ∧ psMs ≤ gameEndMs g ∧ gameEndMs g ≤ peMs) ∧
    (aggregate u psMs peMs l).stats.rapid =
      (modeGamesOf ((aggregate u psMs peMs l).gamesInPeriod) "rapid").length ∧
    (aggregate u psMs peMs l).stats.blitz =
      (modeGamesOf ((aggregate u psMs peMs l).gamesInPeriod) "blitz").length ∧
    (aggregate u psMs peMs l).stats.bullet =
      (modeGamesOf ((aggregate u psMs peMs l).gamesInPeriod) "bullet").length := by
  refine ⟨rfl, ?_, rfl, rfl, rfl⟩
  intro g
  rw [aggregate_gamesInPeriod, List.mem_filter]
  unfold inPeriodB
  simp

/-- End rating of a class is present exactly when the class has an
in-period game. -/
theorem endRatingOf_isSome_iff (u : String) (gip : List Game) (mode : String) :
    (endRatingOf u gip mode).isSome = true ↔ 0 < (modeGamesOf gip mode).length := by
  unfold endRatingOf
  rw [Option.isSome_map', List.getLast?_isSome, List.length_pos]

/-- A class with an in-period game always has a start rating, by the
fallback of the source. -/
theorem startRatingOf_isSome (u : String) (psMs : Int) (sorted gip : List Game)
    (mode : String) (h : 0 < (modeGamesOf gip mode).length) :
    (startRatingOf u psMs sorted gip mode).isSome = true := by
  unfold startRatingOf
  split
  · rfl
  · rw [Option.isSome_map', List.head?_isSome]
    rw [List.length_pos] at h
    exact h

/-- C9: for each class, the end rating is non-null exactly when the class
count is positive, and a positive class count guarantees a non-null start
rating (through the fallback), so a class with any in-period game has both
ratings available for the rating-delta message. -/
theorem C9_rating_availability (u : String) (psMs peMs : Int) (l : List Game) :
    ((aggregate u psMs peMs l).endRatings.rapid.isSome = true ↔
        0 < (aggregate u psMs peMs l).stats.rapid) ∧
    (0 < (aggregate u psMs peMs l).stats.rapid →
        (aggregate u psMs peMs l).startRatings.rapid.isSome = true) ∧
    ((aggregate u psMs peMs l).endRatings.blitz.isSome = true ↔
        0 < (aggregate u psMs peMs l).stats.blitz) ∧
    (0 < (aggregate u psMs peMs l).stats.blitz →
        (aggregate u psMs peMs l).startRatings.blitz.isSome = true) ∧
    ((aggregate u psMs peMs l).endRatings.bullet.isSome = true ↔
        0 < (aggregate u psMs peMs l).stats.bullet) ∧
    (0 < (aggregate u psMs peMs l).stats.bullet →
        (aggregate u psMs peMs l).startRatings.bullet.isSome = true) :=
  ⟨endRatingOf_isSome_iff u _ "rapid", startRatingOf_isSome u psMs _ _ "rapid",
   endRatingOf_isSome_iff u _ "blitz", startRatingOf_isSome u psMs _ _ "blitz",
   endRatingOf_isSome_iff u _ "bullet", startRatingOf_isSome u psMs _ _ "bullet"⟩

/-- Witness for C9: one concrete in-period blitz game makes the blitz
start rating available. -/
theorem C9_rating_availability_witness :
    (aggregate "alice" 0 1000000 [⟨1, "blitz", ⟨"alice", 1500⟩, ⟨"bob", 1400⟩⟩]).startRatings.blitz.isSome
      = true :=
  (C9_rating_availability "alice" 0 1000000
    [⟨1, "blitz", ⟨"alice", 1500⟩, ⟨"bob", 1400⟩⟩]).2.2.2.1 (by decide)

/-! ## Bucket fetch order -/

/-- Lexicographic comparison is decided after a common prefix followed by
the dash separator. -/
theorem sep_append_lt {a b : List Char} (p : List Char) (h : a < b) :
    p ++ '-' :: a < p ++ '-' :: b := by
  induction p with
  | nil => exact List.Lex.cons h
  | cons c r ih => exact List.Lex.cons ih

/-- Within one year, the unpadded keys of months 10 to 12 sort strictly
before the keys of months 2 to 9 in lexicographic order. -/
theorem mkKey_late_month_first {y m1 m2 : Int} (h1 : 10 ≤ m1) (h2 : m1 ≤ 12)
    (h3 : 2 ≤ m2) (h4 : m2 ≤ 9) : mkKey y m1 < mkKey y m2 := by
  unfold mkKey
  apply sep_append_lt
  interval_cases m1 <;> interval_cases m2 <;> decide

/-- September game of the C10 scenario, the earlier of the two. -/
def c10GameSep : Game :=
  ⟨daysFromCivil 2025 9 30 * 86400 + 43200, "blitz", ⟨"mia", 2000⟩, ⟨"bob", 1900⟩⟩

/-- October game of the C10 scenario, the later of the two. -/
def c10GameOct : Game :=
  ⟨daysFromCivil 2025 10 3 * 86400 + 43200, "blitz", ⟨"mia", 2100⟩, ⟨"ann", 1950⟩⟩

/-- Oracle of the C10 scenario: the September 2025 archive holds the
September game, the October 2025 archive the October game, all other
fetches fail. -/
def c10Oracle : String → FetchOutcome := fun url =>
  if url = monthURL "mia" (intToChars 2025) (intToChars 9) then .ok [c10GameSep]
  else if url = monthURL "mia" (intToChars 2025) (intToChars 10) then .ok [c10GameOct]
  else .httpFailure

/-- periodStart of the C10 scenario: Monday 2025-09-29, 00:00 UTC. -/
def c10ps : DateParts := ⟨dateUTCms 2025 8 29 0 0 0, 2025, 8⟩

/-- periodEnd of the C10 scenario: Sunday 2025-10-05, 23:59:59 UTC. -/
def c10pe : DateParts := ⟨dateUTCms 2025 9 5 23 59 59, 2025, 9⟩

/-- Sampled current date of the C10 scenario: 2025-10-05 noon. -/
def c10now : DateParts := ⟨dateUTCms 2025 9 5 12 0 0, 2025, 9⟩

/-- C10: gamesInPeriod is not sorted by end time; it preserves the
bucket-concatenation order (the in-period filter runs on the merged list
before the global sort of allGames, which sorts a different array), and
buckets are fetched in lexicographic order of their unpadded year-month
keys, an order that puts months 10 to 12 of a year before its months 2 to
9.  The concrete weekly scenario straddling September and October 2025
exhibits an in-period list holding the October game before the September
game and hence not sorted by end time. -/
theorem C10_bucket_and_filter_order :
    (∀ (u : String) (psMs peMs : Int) (l : List Game),
        (aggregate u psMs peMs l).gamesInPeriod = l.filter (inPeriodB psMs peMs)) ∧
    (∀ (oracle : String → FetchOutcome) (u : String) (ps pe now : DateParts) (pt : String),
        getStats oracle u ps pe pt now =
          aggregate u ps.ms pe.ms (fetchAll oracle u (resolveMonths pt ps pe now))) ∧
    (∀ (pt : String) (ps pe now : DateParts),
        (resolveMonths pt ps pe now).Sorted (· ≤ ·)) ∧
    (∀ y m1 m2 : Int, 10 ≤ m1 → m1 ≤ 12 → 2 ≤ m2 → m2 ≤ 9 →
        mkKey y m1 < mkKey y m2) ∧
    ((getStats c10Oracle "mia" c10ps c10pe "weekly" c10now).gamesInPeriod
        = [c10GameOct, c10GameSep] ∧
      c10GameSep.end_time < c10GameOct.end_time ∧
      ¬ List.Sorted (fun a b : Game => a.end_time ≤ b.end_time)
          (getStats c10Oracle "mia" c10ps c10pe "weekly" c10now).gamesInPeriod) := by
  refine ⟨fun _ _ _ _ => rfl, fun _ _ _ _ _ _ => rfl, ?_, ?_, ?_, ?_, ?_⟩
  · intro pt ps pe now
    simp only [resolveMonths]
    exact sortKeys_sorted _
  · intro y m1 m2 h1 h2 h3 h4
    exact mkKey_late_month_first h1 h2 h3 h4
  · decide
  · decide
  · decide

/-- Witness for C10: the October 2025 key sorts before the February 2025
key. -/
theorem C10_bucket_and_filter_order_witness : mkKey 2025 10 < mkKey 2025 2 :=
  C10_bucket_and_filter_order.2.2.2.1 2025 10 2 (by decide) (by decide) (by decide) (by decide)

/-! ## End-rating extraction against bucket order (C1) -/

/-- September game of the C1 scenario: blitz, ends 2025-09-30 noon, the
subject is white with rating 1500. -/
def c1GameSep : Game :=
  ⟨daysFromCivil 2025 9 30 * 86400 + 43200, "blitz", ⟨"Alice", 1500⟩, ⟨"bob", 1400⟩⟩

/-- October game of the C1 scenario: blitz, ends 2025-10-03 noon, the
subject is white with rating 1600 — the last in-period blitz game by end
time. -/
def c1GameOct : Game :=
  ⟨daysFromCivil 2025 10 3 * 86400 + 43200, "blitz", ⟨"alice", 1600⟩, ⟨"carl", 1450⟩⟩

/-- Oracle of the C1 scenario: September and October 2025 each hold one
game, every other fetch fails. -/
def c1Oracle : String → FetchOutcome := fun url =>
  if url = monthURL "alice" (intToChars 2025) (intToChars 9) then .ok [c1GameSep]
  else if url = monthURL "alice" (intToChars 2025) (intToChars 10) then .ok [c1GameOct]
  else .httpFailure

/-- periodStart of the C1 scenario: Monday 2025-09-29, 00:00 UTC. -/
def c1ps : DateParts := ⟨dateUTCms 2025 8 29 0 0 0, 2025, 8⟩

/-- periodEnd of the C1 scenario: Sunday 2025-10-05, 23:59:59 UTC. -/
def c1pe : DateParts := ⟨dateUTCms 2025 9 5 23 59 59, 2025, 9⟩

/-- Sampled current date of the C1 scenario: 2025-10-05 noon. -/
def c1now : DateParts := ⟨dateUTCms 2025 9 5 12 0 0, 2025, 9⟩

/-- C1: evaluation of getStats at the failing input of the claim.  In the
weekly request straddling September and October 2025, the lexicographic
bucket order fetches October before September, so the in-period blitz
list is October then September; the code reports the September rating
1500 as the blitz end rating, while the in-period blitz game that is last
by end time is the October game, strictly later than every other
in-period game, whose subject rating is 1600.  The claim's reading (end
rating taken from the game last by end time) therefore fails on the code. -/
theorem C1_end_rating_bucket_order (r : StatsResult)
    (hr : r = getStats c1Oracle "alice" c1ps c1pe "weekly" c1now) :
    r.endRatings.blitz = some 1500 ∧
    c1GameOct ∈ r.gamesInPeriod ∧
    c1GameOct.time_class = "blitz" ∧
    (∀ g ∈ r.gamesInPeriod, g = c1GameOct ∨ g.end_time < c1GameOct.end_time) ∧
    subjectRating "alice" c1GameOct = 1600 := by
  subst hr
  refine ⟨by decide, by decide, by decide, by decide, by decide⟩

/-- Witness for C1: its statement applied at the scenario itself. -/
theorem C1_end_rating_bucket_order_witness :
    (getStats c1Oracle "alice" c1ps c1pe "weekly" c1now).endRatings.blitz = some 1500 :=
  (C1_end_rating_bucket_order _ rfl).1

/-! ## Silent rating misattribution (C2) -/

/-- Game of the C2 scenario: neither participant is the requested user. -/
def c2Game : Game := ⟨100, "blitz", ⟨"bob", 1400⟩, ⟨"carol", 1700⟩⟩

/-- C2: evaluation of the aggregation at the failing input of the claim.
For a game whose white and black usernames both fail to match the subject
case-insensitively, the code silently attributes black's rating to the
subject — the blitz start and end ratings become 1700, carol's rating —
and the result type offers no error channel at all, so no structured
data-consistency failure reaches the caller, contrary to the claim. -/
theorem C2_silent_misattribution (r : StatsResult)
    (hr : r = aggregate "alice" 0 1000000 [c2Game]) :
    lowerStr c2Game.white.username ≠ lowerStr "alice" ∧
    lowerStr c2Game.black.username ≠ lowerStr "alice" ∧
    r.endRatings.blitz = some 1700 ∧
    r.startRatings.blitz = some 1700 ∧
    c2Game.black.rating = 1700 := by
  subst hr
  refine ⟨by decide, by decide, by decide, by decide, by decide⟩

/-- Witness for C2: its statement applied at the scenario itself. -/
theorem C2_silent_misattribution_witness :
    (aggregate "alice" 0 1000000 [c2Game]).endRatings.blitz = some 1700 :=
  (C2_silent_misattribution _ rfl).2.2.1

/-! ## Start-rating fallback against bucket order (C3) -/

/-- September game of the C3 scenario: blitz, 2025-09-30 noon, subject
rating 1800 — the first in-period blitz game by end time. -/
def c3GameSep : Game :=
  ⟨daysFromCivil 2025 9 30 * 86400 + 43200, "blitz", ⟨"alice", 1800⟩, ⟨"dan", 1750⟩⟩

/-- October game of the C3 scenario: blitz, 2025-10-03 noon, subject
rating 1900. -/
def c3GameOct : Game :=
  ⟨daysFromCivil 2025 10 3 * 86400 + 43200, "blitz", ⟨"alice", 1900⟩, ⟨"eve", 1850⟩⟩

/-- Oracle of the C3 scenario: September and October 2025 each hold one
game, every other fetch fails; in particular there is no game before the
period, so the start-rating fallback applies. -/
def c3Oracle : String → FetchOutcome := fun url =>
  if url = monthURL "alice" (intToChars 2025) (intToChars 9) then .ok [c3GameSep]
  else if url = monthURL "alice" (intToChars 2025) (intToChars 10) then .ok [c3GameOct]
  else .httpFailure

/-- periodStart of the C3 scenario: Monday 2025-09-29, 00:00 UTC. -/
def c3ps : DateParts := ⟨dateUTCms 2025 8 29 0 0 0, 2025, 8⟩

/-- periodEnd of the C3 scenario: Sunday 2025-10-05, 23:59:59 UTC. -/
def c3pe : DateParts := ⟨dateUTCms 2025 9 5 23 59 59, 2025, 9⟩

/-- Sampled current date of the C3 scenario: 2025-10-05 noon. -/
def c3now : DateParts := ⟨dateUTCms 2025 9 5 12 0 0, 2025, 9⟩

/-- C3: evaluation of getStats at the failing input of the claim.  No
fetched game of the scenario ends before the period, so the fallback
clause applies; the first in-period blitz game by end time is the
September game with subject rating 1800, strictly earlier than every
other in-period game, but the code takes the first element of the
in-period list in bucket-concatenation order — the October game — and
reports 1900 as the blitz start rating.  The claim's fallback reading
(first in-period game by end time) therefore fails on the code. -/
theorem C3_fallback_bucket_order (r : StatsResult)
    (hr : r = getStats c3Oracle "alice" c3ps c3pe "weekly" c3now) :
    r.startRatings.blitz = some 1900 ∧
    (∀ g ∈ fetchAll c3Oracle "alice" (resolveMonths "weekly" c3ps c3pe c3now),
        ¬ gameEndMs g < c3ps.ms) ∧
    c3GameSep ∈ r.gamesInPeriod ∧
    c3GameSep.time_class = "blitz" ∧
    (∀ g ∈ r.gamesInPeriod, g = c3GameSep ∨ c3GameSep.end_time < g.end_time) ∧
    subjectRating "alice" c3GameSep = 1800 := by
  subst hr
  refine ⟨by decide, by decide, by decide, by decide, by decide, by decide⟩

/-- Witness for C3: its statement applied at the scenario itself. -/
theorem C3_fallback_bucket_order_witness :
    (getStats c3Oracle "alice" c3ps c3pe "weekly" c3now).startRatings.blitz = some 1900 :=
  (C3_fallback_bucket_order _ rfl).1
